import Mathlib

/-!
Verification of the EDS/TEM core-shell nanoparticle quantification pipeline
(notebook `TEM_EDS_Tutorial_HyperSpy_CoreShellNanoparticles.ipynb`).

The notebook orchestrates array operations over spectral cubes:
thresholding an intensity map into a boolean mask (`mask = pt_la > 6`),
masking a cube and aggregating it into one spectrum
(`s_bare = (c * c_mask).sum(0).sum(0)`), estimating background windows,
computing net line intensities, and Cliff-Lorimer quantification
(`s.quantification(intensities=sI, kfactors=kfactors, ...)`).
Cube data values are modelled as rationals, navigation (spatial) axes as
`Fin nx`/`Fin ny` and the energy axis as `Fin ne`.
-/

/-- A spectral cube: two spatial (navigation) axes and one energy axis,
one numeric count per (pixel, energy-channel) position. -/
def SpecCube (nx ny ne : Nat) : Type := Fin nx → Fin ny → Fin ne → ℚ

/-- A 2D boolean spatial mask with the same spatial shape as a cube's
navigation axes. -/
def SpatialMask (nx ny : Nat) : Type := Fin nx → Fin ny → Bool

/-- A 2D intensity map, one value per spatial pixel. -/
def IntensityMap (nx ny : Nat) : Type := Fin nx → Fin ny → ℚ

/-- A 1D spectrum over the energy axis. -/
def Spectrum (ne : Nat) : Type := Fin ne → ℚ

/-- Elementwise multiplication of a cube by a boolean mask broadcast over the
energy axis, as in the notebook expression `c * c_mask`: a `True` mask pixel
keeps the cube value (multiplication by 1), a `False` pixel zeroes it. -/
def applyMask {nx ny ne : Nat} (c : SpecCube nx ny ne) (m : SpatialMask nx ny) :
    SpecCube nx ny ne :=
  fun i j k => if m i j then c i j k else 0

/-- Reduction over both spatial axes, as in `.sum(0).sum(0)`: the result is a
1D spectrum. -/
def sumSpatial {nx ny ne : Nat} (c : SpecCube nx ny ne) : Spectrum ne :=
  fun k => ∑ i, ∑ j, c i j k

/-- Total intensity of a 1D spectrum: the sum over all energy channels. -/
def totalIntensity {ne : Nat} (s : Spectrum ne) : ℚ := ∑ k, s k

/-- Sum of every value of a cube, over both spatial axes and the energy axis. -/
def cubeTotal {nx ny ne : Nat} (c : SpecCube nx ny ne) : ℚ :=
  ∑ i, ∑ j, ∑ k, c i j k

/-- Thresholding an intensity map at a value, as in the notebook line
`mask = pt_la > 6`: the mask is true exactly where the map value is strictly
greater than the threshold. -/
def thresholdMask {nx ny : Nat} (I : IntensityMap nx ny) (v : ℚ) :
    SpatialMask nx ny :=
  fun i j => decide (v < I i j)

/-- Helper: the aggregated masked spectrum's total intensity is the sum of
the per-pixel energy totals of the cube over the mask-true pixels. -/
theorem maskedTotal_eq {nx ny ne : Nat} (c : SpecCube nx ny ne)
    (m : SpatialMask nx ny) :
    totalIntensity (sumSpatial (applyMask c m)) =
      ∑ i, ∑ j, if m i j then (∑ k, c i j k) else 0 := by
  unfold totalIntensity sumSpatial applyMask
  calc (∑ k, ∑ i, ∑ j, if m i j then c i j k else 0)
      = ∑ i, ∑ k, ∑ j, if m i j then c i j k else 0 := Finset.sum_comm
    _ = ∑ i, ∑ j, ∑ k, if m i j then c i j k else 0 :=
        Finset.sum_congr rfl (fun i _ => Finset.sum_comm)
    _ = ∑ i, ∑ j, if m i j then (∑ k, c i j k) else 0 := by
        refine Finset.sum_congr rfl (fun i _ => Finset.sum_congr rfl (fun j _ => ?_))
        by_cases h : m i j <;> simp [h]

/-- C1: applying a mask to a cube of matching navigation shape and summing
over both spatial axes yields a 1D spectrum whose total intensity equals the
sum of the cube's values at the mask-true positions. -/
theorem masked_spectrum_total_eq_true_positions {nx ny ne : Nat}
    (c : SpecCube nx ny ne) (m : SpatialMask nx ny) :
    totalIntensity (sumSpatial (applyMask c m)) =
      ∑ i, ∑ j, if m i j = true then (∑ k, c i j k) else 0 :=
  maskedTotal_eq c m

/-- C3: the mask produced by thresholding an intensity map at a value `v` is
true at exactly the pixels whose value is strictly greater than `v`, and
false at exactly the pixels whose value is at most `v`. -/
theorem threshold_mask_strict {nx ny : Nat} (I : IntensityMap nx ny) (v : ℚ)
    (i : Fin nx) (j : Fin ny) :
    (thresholdMask I v i j = true ↔ I i j > v) ∧
    (thresholdMask I v i j = false ↔ I i j ≤ v) := by
  unfold thresholdMask
  constructor
  · exact ⟨fun h => of_decide_eq_true h, fun h => decide_eq_true h⟩
  · constructor
    · intro h
      exact not_lt.mp (of_decide_eq_false h)
    · intro h
      exact decide_eq_false (not_lt.mpr h)

/-- Modelled from the spec: the Cliff-Lorimer quantification step
(`s.quantification(intensities, kfactors, ...)`), whose implementation lives
in the external library and not in this repository. Per the spec, the
composition fraction of element `i` is proportional to
`intensities i / kfactors i`, normalized so that the fractions over the
configured element set sum to the unit convention's scale (1, or 100 for
percent units). -/
def quantification {n : Nat} (intensities kfactors : Fin n → ℚ) (scale : ℚ) :
    Fin n → ℚ :=
  fun i => scale * (intensities i / kfactors i) /
    (∑ j, intensities j / kfactors j)

/-- Helper: for a nonempty element set and strictly positive intensities and
k-factors, the quantification fractions sum to the unit scale. -/
theorem quantification_sum_scale {n : Nat} (I K : Fin n → ℚ) (scale : ℚ)
    (hn : 0 < n) (hI : ∀ i, 0 < I i) (hK : ∀ i, 0 < K i) :
    (∑ i, quantification I K scale i) = scale := by
  have hne : (Finset.univ : Finset (Fin n)).Nonempty := ⟨⟨0, hn⟩, Finset.mem_univ _⟩
  have hpos : 0 < ∑ j, I j / K j :=
    Finset.sum_pos (fun j _ => div_pos (hI j) (hK j)) hne
  unfold quantification
  rw [← Finset.sum_div, ← Finset.mul_sum, mul_div_assoc,
    div_self (ne_of_gt hpos), mul_one]

/-- C2: for strictly positive net line intensities and k-factors over a
nonempty configured element set, the Cliff-Lorimer composition fractions sum
to 1 under the unit-1 convention and to 100 under the percent convention. -/
theorem quantification_fractions_sum {n : Nat} (I K : Fin n → ℚ)
    (hn : 0 < n) (hI : ∀ i, 0 < I i) (hK : ∀ i, 0 < K i) :
    (∑ i, quantification I K 1 i) = 1 ∧
    (∑ i, quantification I K 100 i) = 100 :=
  ⟨quantification_sum_scale I K 1 hn hI hK,
   quantification_sum_scale I K 100 hn hI hK⟩

/-- Example intensities used to witness the quantification theorems. -/
def exIntensities : Fin 2 → ℚ := fun i => if i.val = 0 then 100 else 50

/-- Example k-factors used to witness the quantification theorems. -/
def exKfactors : Fin 2 → ℚ :=
  fun i => if i.val = 0 then 1450226 / 1000000 else 5075602 / 1000000

/-- Witness for C2 at the notebook's concrete intensities and k-factors. -/
theorem quantification_fractions_sum_witness :
    (∑ i, quantification exIntensities exKfactors 1 i) = 1 ∧
    (∑ i, quantification exIntensities exKfactors 100 i) = 100 :=
  quantification_fractions_sum exIntensities exKfactors (by decide)
    (by intro i; fin_cases i <;> simp [exIntensities])
    (by intro i; fin_cases i <;> simp [exKfactors])

/-- C4: swapping intensities and k-factors of two elements together and
rerunning quantification swaps those two elements' fractions and leaves all
other elements' fractions unchanged. -/
theorem quantification_swap_equivariant {n : Nat} (I K : Fin n → ℚ)
    (scale : ℚ) (a b : Fin n) :
    quantification (fun x => I (Equiv.swap a b x))
        (fun x => K (Equiv.swap a b x)) scale a =
      quantification I K scale b ∧
    quantification (fun x => I (Equiv.swap a b x))
        (fun x => K (Equiv.swap a b x)) scale b =
      quantification I K scale a ∧
    ∀ t, t ≠ a → t ≠ b →
      quantification (fun x => I (Equiv.swap a b x))
          (fun x => K (Equiv.swap a b x)) scale t =
        quantification I K scale t := by
  have hsum : (∑ j, I (Equiv.swap a b j) / K (Equiv.swap a b j)) =
      ∑ j, I j / K j :=
    Equiv.sum_comp (Equiv.swap a b) (fun j => I j / K j)
  have key : ∀ t, quantification (fun x => I (Equiv.swap a b x))
      (fun x => K (Equiv.swap a b x)) scale t =
      quantification I K scale (Equiv.swap a b t) := by
    intro t
    unfold quantification
    rw [hsum]
  refine ⟨?_, ?_, ?_⟩
  · rw [key a, Equiv.swap_apply_left]
  · rw [key b, Equiv.swap_apply_right]
  · intro t hta htb
    rw [key t, Equiv.swap_apply_of_ne_of_ne hta htb]

/-- Example three-element intensities, for the swap witness. -/
def exIntensities3 : Fin 3 → ℚ :=
  fun i => if i.val = 0 then 100 else if i.val = 1 then 50 else 25

/-- Example three-element k-factors, for the swap witness. -/
def exKfactors3 : Fin 3 → ℚ :=
  fun i => if i.val = 0 then 3 / 2 else if i.val = 1 then 5 else 2

/-- Witness for C4: swapping elements 0 and 1 of a three-element input swaps
their fractions and leaves element 2's fraction unchanged. -/
theorem quantification_swap_equivariant_witness :
    quantification (fun x => exIntensities3 (Equiv.swap 0 1 x))
        (fun x => exKfactors3 (Equiv.swap 0 1 x)) 1 0 =
      quantification exIntensities3 exKfactors3 1 1 ∧
    quantification (fun x => exIntensities3 (Equiv.swap 0 1 x))
        (fun x => exKfactors3 (Equiv.swap 0 1 x)) 1 1 =
      quantification exIntensities3 exKfactors3 1 0 ∧
    quantification (fun x => exIntensities3 (Equiv.swap 0 1 x))
        (fun x => exKfactors3 (Equiv.swap 0 1 x)) 1 2 =
      quantification exIntensities3 exKfactors3 1 2 := by
  obtain ⟨h1, h2, h3⟩ :=
    quantification_swap_equivariant exIntensities3 exKfactors3 1 0 1
  exact ⟨h1, h2, h3 2 (by decide) (by decide)⟩

/-- C5: on the notebook's concrete input, net intensities `[100, 50]` for
(Fe, Pt) with k-factors `[1.450226, 5.075602]`, quantification with unit
scale 1 returns fractions proportional to `100 / 1.450226` and
`50 / 5.075602`, normalized so that the two fractions sum to 1. -/
theorem quantification_fe_pt_example :
    quantification exIntensities exKfactors 1 0 =
      (100 / (1450226 / 1000000)) /
        (100 / (1450226 / 1000000) + 50 / (5075602 / 1000000)) ∧
    quantification exIntensities exKfactors 1 1 =
      (50 / (5075602 / 1000000)) /
        (100 / (1450226 / 1000000) + 50 / (5075602 / 1000000)) ∧
    quantification exIntensities exKfactors 1 0 +
      quantification exIntensities exKfactors 1 1 = 1 := by
  refine ⟨?_, ?_, ?_⟩ <;>
    simp only [quantification, exIntensities, exKfactors, Fin.sum_univ_two] <;>
    norm_num

/-- Modelled from the spec: the pipeline's error conditions (ShapeMismatch,
MissingCalibration, InvalidWindow), surfaced immediately to the caller. -/
inductive PipelineError where
  | ShapeMismatch
  | MissingCalibration
  | InvalidWindow
deriving DecidableEq

/-- A mask carrying its own spatial shape, for the shape-compatibility
check of the mask-application step. -/
structure RawMask where
  nx : Nat
  ny : Nat
  data : Fin nx → Fin ny → Bool

/-- A cube carrying its own navigation and energy shape. -/
structure RawCube where
  nx : Nat
  ny : Nat
  ne : Nat
  data : Fin nx → Fin ny → Fin ne → ℚ

/-- Modelled from the spec: the mask-application step (`c * c_mask`) on
shape-carrying data. The external array library, not this repository, holds
the code that rejects mismatched operands; per the spec it fails with a
ShapeMismatch condition exactly when the mask's spatial shape differs from
the cube's navigation shape, and otherwise multiplies elementwise. -/
def applyMaskChecked (c : RawCube) (m : RawMask) :
    Except PipelineError RawCube :=
  if h : m.nx = c.nx ∧ m.ny = c.ny then
    Except.ok ⟨c.nx, c.ny, c.ne,
      applyMask c.data
        (fun i j => m.data (Fin.cast h.1.symm i) (Fin.cast h.2.symm j))⟩
  else
    Except.error PipelineError.ShapeMismatch

/-- C6: whenever a mask whose spatial shape differs from the cube's
navigation shape reaches the mask-application step, the step fails with the
ShapeMismatch condition, surfaced immediately as the step's result. -/
theorem mask_shape_mismatch_fails (c : RawCube) (m : RawMask)
    (h : ¬ (m.nx = c.nx ∧ m.ny = c.ny)) :
    applyMaskChecked c m = Except.error PipelineError.ShapeMismatch := by
  unfold applyMaskChecked
  rw [dif_neg h]

/-- Example 2x2x1 cube with shape data, for the shape-mismatch witness. -/
def exRawCube : RawCube := ⟨2, 2, 1, fun _ _ _ => 1⟩

/-- Example 1x2 mask with shape data, mismatching `exRawCube`. -/
def exRawMask : RawMask := ⟨1, 2, fun _ _ => true⟩

/-- Witness for C6 at a concrete mismatched cube/mask pair. -/
theorem mask_shape_mismatch_fails_witness :
    applyMaskChecked exRawCube exRawMask =
      Except.error PipelineError.ShapeMismatch :=
  mask_shape_mismatch_fails exRawCube exRawMask (by decide)

/-- One row of a background-window table: the characteristic line (peak)
energy and the four boundaries of the two background windows flanking the
peak, as in the table `w` of `estimate_background_windows`. -/
structure BgWindowRow where
  peakEnergy : ℚ
  lo1 : ℚ
  hi1 : ℚ
  lo2 : ℚ
  hi2 : ℚ

/-- Modelled from the spec: a background-window row satisfies the ordering
requirement when each window has lower bound strictly below its upper bound
and neither window overlaps the characteristic peak energy. -/
def rowValid (r : BgWindowRow) : Bool :=
  decide (r.lo1 < r.hi1) && decide (r.lo2 < r.hi2) &&
  !(decide (r.lo1 ≤ r.peakEnergy) && decide (r.peakEnergy ≤ r.hi1)) &&
  !(decide (r.lo2 ≤ r.peakEnergy) && decide (r.peakEnergy ≤ r.hi2))

/-- Sum of a spectrum over the channels whose energy lies in `[lo, hi]`. -/
def windowSum {ne : Nat} (s : Spectrum ne) (energyOf : Fin ne → ℚ)
    (lo hi : ℚ) : ℚ :=
  ∑ k, if lo ≤ energyOf k ∧ energyOf k ≤ hi then s k else 0

/-- Modelled from the spec: net line intensity for one row — the counts in
the peak region between the two background windows, minus the background
estimated as the average of the two flanking window sums. -/
def netIntensity {ne : Nat} (s : Spectrum ne) (energyOf : Fin ne → ℚ)
    (r : BgWindowRow) : ℚ :=
  windowSum s energyOf r.hi1 r.lo2 -
    (windowSum s energyOf r.lo1 r.hi1 + windowSum s energyOf r.lo2 r.hi2) / 2

/-- Modelled from the spec: the intensity-estimation step
(`s.get_lines_intensity(background_windows=w)`), whose implementation lives
in the external library. The whole (possibly user-refined) window table is
checked against the ordering requirement before any intensity is computed;
a violation fails with the InvalidWindow condition. -/
def getLinesIntensity {ne n : Nat} (s : Spectrum ne) (energyOf : Fin ne → ℚ)
    (table : Fin n → BgWindowRow) : Except PipelineError (Fin n → ℚ) :=
  if ∀ i, rowValid (table i) = true then
    Except.ok (fun i => netIntensity s energyOf (table i))
  else
    Except.error PipelineError.InvalidWindow

/-- C7: whenever the background-window table violates the ordering
requirement in some row, the intensity-estimation step fails with the
InvalidWindow condition before computing any intensity. -/
theorem invalid_window_fails {ne n : Nat} (s : Spectrum ne)
    (energyOf : Fin ne → ℚ) (table : Fin n → BgWindowRow)
    (h : ¬ ∀ i, rowValid (table i) = true) :
    getLinesIntensity s energyOf table =
      Except.error PipelineError.InvalidWindow := by
  unfold getLinesIntensity
  rw [if_neg h]

/-- Example window row violating the ordering requirement: its first window
has lower bound 2 above its upper bound 1. -/
def exBadRow : BgWindowRow := ⟨5, 2, 1, 6, 7⟩

/-- Example one-channel spectrum for the window witnesses. -/
def exSpectrum : Spectrum 1 := fun _ => 3

/-- Example channel-energy calibration for the window witnesses. -/
def exEnergyOf : Fin 1 → ℚ := fun _ => 1

/-- Witness for C7 at a concrete invalid window table. -/
theorem invalid_window_fails_witness :
    getLinesIntensity exSpectrum exEnergyOf (fun _ : Fin 1 => exBadRow) =
      Except.error PipelineError.InvalidWindow :=
  invalid_window_fails exSpectrum exEnergyOf (fun _ => exBadRow)
    (by intro h; have hb := h 0; simp [rowValid, exBadRow] at hb)

/-- The notebook's bindings around the masking step, as explicit state: the
bare-core cube `c`, the mask signal `c_mask`, and the aggregated spectrum
`s_bare`. -/
structure PipelineState (nx ny ne : Nat) where
  c : SpecCube nx ny ne
  cMask : SpatialMask nx ny
  sBare : Spectrum ne

/-- The notebook step `s_bare = (c * c_mask).sum(0).sum(0)`: it binds
`s_bare` to a newly built aggregated spectrum and writes no other binding. -/
def sBareStep {nx ny ne : Nat} (st : PipelineState nx ny ne) :
    PipelineState nx ny ne :=
  { st with sBare := sumSpatial (applyMask st.c st.cMask) }

/-- C8: applying the mask and aggregating leaves the cube's data (and the
mask) unchanged; the step produces a new spectrum object rather than
transforming the cube in place. -/
theorem mask_application_leaves_cube_unchanged {nx ny ne : Nat}
    (st : PipelineState nx ny ne) :
    (sBareStep st).c = st.c ∧ (sBareStep st).cMask = st.cMask ∧
    (sBareStep st).sBare = sumSpatial (applyMask st.c st.cMask) :=
  ⟨rfl, rfl, rfl⟩

/-- Modelled from the spec: an intensity map derived from a cube by
integrating over an energy window (`c.get_lines_intensity([...])`), computed
by the external library. -/
def lineIntensityMap {nx ny ne : Nat} (c : SpecCube nx ny ne)
    (energyOf : Fin ne → ℚ) (lo hi : ℚ) : IntensityMap nx ny :=
  fun i j => ∑ k, if lo ≤ energyOf k ∧ energyOf k ≤ hi then c i j k else 0

/-- The masking-through-quantification pipeline composed from the steps
above: threshold a line-intensity map into a mask, apply the mask to the
cube and aggregate over the spatial axes, estimate net line intensities
against the background-window table, and quantify with the k-factors. -/
def pipeline {nx ny ne n : Nat} (c : SpecCube nx ny ne)
    (energyOf : Fin ne → ℚ) (lineLo lineHi thr : ℚ)
    (table : Fin n → BgWindowRow) (kfactors : Fin n → ℚ) (scale : ℚ) :
    Except PipelineError (Fin n → ℚ) :=
  let m := thresholdMask (lineIntensityMap c energyOf lineLo lineHi) thr
  let sAgg := sumSpatial (applyMask c m)
  Except.map (fun sI => quantification sI kfactors scale)
    (getLinesIntensity sAgg energyOf table)

/-- C9: the pipeline from thresholding through quantification is
deterministic — two runs on equal cubes, equal calibration, equal threshold,
equal window tables and equal k-factors produce identical outputs at every
step, hence an identical final result. -/
theorem pipeline_deterministic {nx ny ne n : Nat}
    (c1 c2 : SpecCube nx ny ne) (e1 e2 : Fin ne → ℚ)
    (la1 la2 lb1 lb2 t1 t2 : ℚ) (w1 w2 : Fin n → BgWindowRow)
    (k1 k2 : Fin n → ℚ) (u1 u2 : ℚ)
    (hc : c1 = c2) (he : e1 = e2) (hla : la1 = la2) (hlb : lb1 = lb2)
    (ht : t1 = t2) (hw : w1 = w2) (hk : k1 = k2) (hu : u1 = u2) :
    pipeline c1 e1 la1 lb1 t1 w1 k1 u1 = pipeline c2 e2 la2 lb2 t2 w2 k2 u2 := by
  subst hc he hla hlb ht hw hk hu
  rfl

/-- Example 1x1x1 cube for the determinism and bound witnesses. -/
def exCube1 : SpecCube 1 1 1 := fun _ _ _ => 2

/-- Witness for C9: two runs of the pipeline on the same concrete inputs
give the same result. -/
theorem pipeline_deterministic_witness :
    pipeline exCube1 exEnergyOf 0 2 1 (fun _ : Fin 1 => exBadRow)
        (fun _ => 1) 1 =
      pipeline exCube1 exEnergyOf 0 2 1 (fun _ : Fin 1 => exBadRow)
        (fun _ => 1) 1 :=
  pipeline_deterministic exCube1 exCube1 exEnergyOf exEnergyOf 0 0 2 2 1 1
    (fun _ => exBadRow) (fun _ => exBadRow) (fun _ => 1) (fun _ => 1) 1 1
    rfl rfl rfl rfl rfl rfl rfl rfl

/-- C10: for every cube and mask, the masked cube equals the cube at every
energy channel of every mask-true pixel and 0 at every mask-false pixel;
consequently, when the cube's entries are non-negative, the aggregated
masked total is at most the cube's total, with equality for the all-true
mask. -/
theorem mask_pointwise_and_total_bound {nx ny ne : Nat}
    (c : SpecCube nx ny ne) (m : SpatialMask nx ny) :
    (∀ i j k, (m i j = true → applyMask c m i j k = c i j k) ∧
      (m i j = false → applyMask c m i j k = 0)) ∧
    ((∀ i j k, 0 ≤ c i j k) →
      totalIntensity (sumSpatial (applyMask c m)) ≤ cubeTotal c ∧
      ((∀ i j, m i j = true) →
        totalIntensity (sumSpatial (applyMask c m)) = cubeTotal c)) := by
  refine ⟨?_, fun h => ⟨?_, ?_⟩⟩
  · intro i j k
    constructor <;> intro hm <;> simp [applyMask, hm]
  · rw [maskedTotal_eq]
    unfold cubeTotal
    refine Finset.sum_le_sum (fun i _ => Finset.sum_le_sum (fun j _ => ?_))
    by_cases hm : m i j = true
    · rw [if_pos hm]
    · rw [if_neg hm]
      exact Finset.sum_nonneg (fun k _ => h i j k)
  · intro hall
    rw [maskedTotal_eq]
    unfold cubeTotal
    refine Finset.sum_congr rfl (fun i _ => Finset.sum_congr rfl (fun j _ => ?_))
    rw [if_pos (hall i j)]

/-- Example all-true 1x1 mask for the bound witness. -/
def exMaskTrue : SpatialMask 1 1 := fun _ _ => true

/-- Witness for C10: at a concrete non-negative cube and all-true mask, the
aggregated masked total is bounded by the cube total. -/
theorem mask_pointwise_and_total_bound_witness :
    totalIntensity (sumSpatial (applyMask exCube1 exMaskTrue)) ≤
      cubeTotal exCube1 :=
  ((mask_pointwise_and_total_bound exCube1 exMaskTrue).2
    (by intro i j k; simp [exCube1])).1
